import Mathlib

/-!
Shallow embedding of the task-manager API's real-time/session core:
the token service (`src/utils/auth.ts`) and the socket event router
(`src/utils/socketHandlers.js`).  Pure JS helpers are translated to Lean
functions; the in-process refresh-token registry and the socket room
registry become explicit state threaded through the handlers; time is an
`Int` of milliseconds since the epoch; fallible persistence calls take an
explicit outcome.
-/

namespace TaskManager

/-! ### JavaScript primitives

`parseInt(s, 10)`: skips leading whitespace, reads an optional sign and
the longest decimal-digit run; yields NaN (modelled `none`) when no
digit is read. -/

def digitsVal (cs : List Char) : Nat :=
  cs.foldl (fun a c => a * 10 + (c.toNat - 48)) 0

def jsParseInt (s : String) : Option Int :=
  match s.toList.dropWhile Char.isWhitespace with
  | [] => none
  | c :: rest =>
    if c = '-' then
      let ds := rest.takeWhile Char.isDigit
      if ds.isEmpty then none else some (-(digitsVal ds : Int))
    else if c = '+' then
      let ds := rest.takeWhile Char.isDigit
      if ds.isEmpty then none else some ((digitsVal ds : Int))
    else
      let ds := (c :: rest).takeWhile Char.isDigit
      if ds.isEmpty then none else some ((digitsVal ds : Int))

def isJsHexDigit (c : Char) : Bool :=
  c.isDigit || ('a' ≤ c && c ≤ 'f') || ('A' ≤ c && c ≤ 'F')

def hexDigitsVal (cs : List Char) : Nat :=
  cs.foldl (fun a c =>
    a * 16 + (if c.isDigit then c.toNat - 48
              else if 'a' ≤ c && c ≤ 'f' then c.toNat - 87
              else c.toNat - 55)) 0

/-- The unsigned part of radix-less `parseInt(s)`: a `0x`/`0X` prefix
switches to hexadecimal (NaN if no hex digit follows), otherwise the
longest decimal-digit run (NaN if empty). -/
def jsParseIntMagnitude (cs : List Char) : Option Int :=
  match cs with
  | '0' :: 'x' :: rest =>
      let ds := rest.takeWhile isJsHexDigit
      if ds.isEmpty then none else some ((hexDigitsVal ds : Int))
  | '0' :: 'X' :: rest =>
      let ds := rest.takeWhile isJsHexDigit
      if ds.isEmpty then none else some ((hexDigitsVal ds : Int))
  | _ =>
      let ds := cs.takeWhile Char.isDigit
      if ds.isEmpty then none else some ((digitsVal ds : Int))

/-- `parseInt(s)` with no radix argument: skips leading whitespace, reads
an optional sign, then interprets a `0x`/`0X` prefix as hexadecimal and
anything else as decimal. -/
def jsParseIntNoRadix (s : String) : Option Int :=
  match s.toList.dropWhile Char.isWhitespace with
  | [] => none
  | c :: rest =>
    if c = '-' then (jsParseIntMagnitude rest).map Int.neg
    else if c = '+' then jsParseIntMagnitude rest
    else jsParseIntMagnitude (c :: rest)

/-- Radix-less `parseInt(field)` applied to a request field that may be
absent: `parseInt(undefined)` is NaN (`none`). -/
def jsParseIntNoRadixField (field : Option String) : Option Int :=
  match field with
  | none => none
  | some s => jsParseIntNoRadix s

/-! ### Token service (`src/utils/auth.ts`)

`const unit = expiryString.slice(-1); const value = parseInt(expiryString.slice(0, -1), 10);
if (isNaN(value)) return 0; switch (unit) ... default: return 0;` -/

def parseExpiryToMilliseconds (expiryString : String) : Int :=
  let cs := expiryString.toList
  match cs.getLast? with
  | none => 0
  | some unit =>
    match jsParseInt (String.mk cs.dropLast) with
    | none => 0
    | some value =>
      if unit = 's' then value * 1000
      else if unit = 'm' then value * 60 * 1000
      else if unit = 'h' then value * 60 * 60 * 1000
      else if unit = 'd' then value * 24 * 60 * 60 * 1000
      else 0

/-- JS `toLowerCase` (ASCII range), mapped over the characters. -/
def jsToLowerCase (s : String) : String :=
  String.mk (s.toList.map Char.toLower)

/-- The fallback guard shared by `signAccessToken` / `signRefreshToken`:
`milliseconds === 0 && !['0s','0m','0h','0d'].includes(raw.toLowerCase())`. -/
def expiryFallback (raw : String) : Bool :=
  decide (parseExpiryToMilliseconds raw = 0) &&
    !(["0s", "0m", "0h", "0d"].contains (jsToLowerCase raw))

/-- `signAccessToken`'s expiry computation: seconds used for the JWT and
whether the 15-minute default (with a `console.warn`) was taken. -/
def accessExpiry (raw : String) : Int × Bool :=
  if expiryFallback raw then (15 * 60, true)
  else (parseExpiryToMilliseconds raw / 1000, false)

/-- `signRefreshToken`'s duration computation: milliseconds stored in the
registry record and whether the 7-day default (with a `console.warn`) was
taken.  The JWT `expiresIn` is this value divided by 1000. -/
def refreshDuration (raw : String) : Int × Bool :=
  if expiryFallback raw then (7 * 24 * 60 * 60 * 1000, true)
  else (parseExpiryToMilliseconds raw, false)

/-- A signed JWT, abstracted: payload user id, signing secret, and the
expiry instant (ms).  `jwt.verify` is modelled as checking the secret and
the expiry. -/
structure Jwt where
  userId : Int
  secret : String
  exp : Int
deriving DecidableEq, Repr

structure RefreshTokenRecord where
  userId : Int
  expiresAt : Int
deriving DecidableEq, Repr

/-- The in-process `refreshTokensStore`, a string-keyed object modelled as
an association list keyed by the token. -/
abbrev Store := List (Jwt × RefreshTokenRecord)

def storeLookup (s : Store) (t : Jwt) : Option RefreshTokenRecord :=
  match s with
  | [] => none
  | (k, r) :: rest => if k = t then some r else storeLookup rest t

/-- `delete refreshTokensStore[token]`. -/
def storeErase (s : Store) (t : Jwt) : Store :=
  List.filter (fun p => !decide (p.1 = t)) s

def verifyToken (t : Jwt) (secret : String) (now : Int) : Option Int :=
  if t.secret = secret ∧ ¬(t.exp < now) then some t.userId else none

def signAccessToken (cfg : String) (accessSecret : String) (userId now : Int) : Jwt :=
  { userId := userId, secret := accessSecret, exp := now + (accessExpiry cfg).1 * 1000 }

/-- `signRefreshToken`: signs the token and inserts
`{userId, expiresAt: Date.now() + duration}` into the registry (object
assignment replaces any previous entry under the same key). -/
def signRefreshToken (cfg : String) (refreshSecret : String) (userId now : Int)
    (store : Store) : Jwt × Store :=
  let d := (refreshDuration cfg).1
  let t : Jwt := { userId := userId, secret := refreshSecret, exp := now + d }
  (t, (t, { userId := userId, expiresAt := now + d }) :: storeErase store t)

/-- A persisted user row, as far as the auth layer reads it. -/
structure UserRec where
  id : Int
  role : String
  isActive : Bool
deriving DecidableEq, Repr

inductive RefreshOutcome where
  | missingToken
  | invalidOrExpired
  | invalidToken
  | userNotFound
  | ok (newAccessToken : Jwt)
deriving DecidableEq, Repr

/-- `refreshTokenHandler`: registry lookup (absent-or-expired deletes when
present and fails), signature + payload/registry user-id match, user
existence, then a fresh access token; the registry entry is left in place
on success. -/
def refreshTokenHandler (accessCfg accessSecret refreshSecret : String)
    (findUser : Int → Option UserRec) (store : Store)
    (tokenFromBody : Option Jwt) (now : Int) : RefreshOutcome × Store :=
  match tokenFromBody with
  | none => (.missingToken, store)
  | some t =>
    match storeLookup store t with
    | none => (.invalidOrExpired, store)
    | some info =>
      if info.expiresAt < now then (.invalidOrExpired, storeErase store t)
      else
        match verifyToken t refreshSecret now with
        | none => (.invalidToken, storeErase store t)
        | some uid =>
          if uid ≠ info.userId then (.invalidToken, storeErase store t)
          else
            match findUser uid with
            | none => (.userNotFound, storeErase store t)
            | some _ => (.ok (signAccessToken accessCfg accessSecret uid now), store)

/-- `logoutHandler`: deletes the registry entry when the body carries a
token that is present; always answers 200. -/
def logoutHandler (store : Store) (tokenFromBody : Option Jwt) : Store :=
  match tokenFromBody with
  | none => store
  | some t =>
    match storeLookup store t with
    | none => store
    | some _ => storeErase store t

/-- The hourly cleanup interval body: deletes every entry with
`expiresAt < now`. -/
def cleanupSweep (store : Store) (now : Int) : Store :=
  List.filter (fun p => !decide (p.2.expiresAt < now)) store

/-! ### `requireAdminOrOwner` (`src/utils/auth.ts`) -/

inductive GuardOutcome where
  | authRequired
  | accessDenied
  | granted
deriving DecidableEq, Repr

/-- JS `req.user.id === parseInt(field)`: false when the parse is NaN. -/
def idMatches (parsed : Option Int) (id : Int) : Bool :=
  match parsed with
  | none => false
  | some v => v == id

def requireAdminOrOwner (user : Option UserRec)
    (paramsField bodyField : Option String) : GuardOutcome :=
  match user with
  | none => .authRequired
  | some u =>
    let isAdmin := u.role == "ADMIN"
    let isOwner := idMatches (jsParseIntNoRadixField paramsField) u.id ||
                   idMatches (jsParseIntNoRadixField bodyField) u.id
    if !isAdmin && !isOwner then .accessDenied else .granted

/-! ### Socket event router (`src/utils/socketHandlers.js`)

The persistence collaborator's rows read by the handlers, as a snapshot. -/

structure Project where
  id : Int
  ownerId : Int
  isPublic : Bool
deriving DecidableEq, Repr

structure TaskRow where
  id : Int
  assignedToId : Option Int
  createdById : Int
  watcherIds : List Int
deriving DecidableEq, Repr

structure UserRow where
  id : Int
  username : String
  firstName : Option String
deriving DecidableEq, Repr

structure MessageRow where
  id : Int
  conversationId : Int
  senderId : Int
  content : String
  messageType : String
  createdAt : Int
deriving DecidableEq, Repr

structure NotificationRow where
  userId : Int
  ntype : String
  title : String
  content : String
  dataConversationId : Int
  dataMessageId : Int
deriving DecidableEq, Repr

structure Db where
  projects : List Project
  tasks : List TaskRow
  users : List UserRow
  convParticipants : List (Int × Int)
  messages : List MessageRow
  notifications : List NotificationRow
deriving Repr

/-- `prisma.project.findFirst({where: {id, OR: [{ownerId}, {isPublic: true}]}})`
succeeds. -/
def projectAccess (db : Db) (uid pid : Int) : Bool :=
  db.projects.any fun p => p.id == pid && (p.ownerId == uid || p.isPublic)

/-- `prisma.task.findFirst({where: {id, OR: [{assignedToId}, {createdById},
{watchers: {some: {userId}}}]}})` succeeds. -/
def taskAccess (db : Db) (uid tid : Int) : Bool :=
  db.tasks.any fun t =>
    t.id == tid && (t.assignedToId == some uid || t.createdById == uid
      || t.watcherIds.contains uid)

/-- `prisma.conversationParticipant.findFirst({where: {conversationId, userId}})`
succeeds. -/
def isParticipant (db : Db) (convId uid : Int) : Bool :=
  db.convParticipants.any fun pr => pr.1 == convId && pr.2 == uid

/-- `message.sender.firstName || message.sender.username` (JS `||`: an empty
or absent first name falls back to the username). -/
def senderLabel (db : Db) (uid : Int) : String :=
  match db.users.find? (fun u => u.id == uid) with
  | none => ""
  | some u =>
    match u.firstName with
    | some f => if f = "" then u.username else f
    | none => u.username

inductive Room where
  | userRoom (uid : Int)
  | projectRoom (pid : Int)
  | taskRoom (tid : Int)
  | convRoom (cid : Int)
deriving DecidableEq, Repr

/-- One live socket: its id, the authenticated principal, and the rooms it
has joined (the handshake joins `user:<id>`). -/
structure Conn where
  cid : Nat
  userId : Int
  rooms : List Room
deriving DecidableEq, Repr

def initConn (cid : Nat) (uid : Int) : Conn :=
  { cid := cid, userId := uid, rooms := [.userRoom uid] }

inductive OutEvent where
  | joinedProject (pid : Int)
  | joinedTask (tid : Int)
  | joinedConversation (cid : Int)
  | newMessage (m : MessageRow)
  | notificationEv (userId : Int) (ntype title msg : String)
  | errEvent (msg : String)
  | userTyping (uid cid : Int)
  | userStoppedTyping (uid cid : Int)
deriving DecidableEq, Repr

/-- `socket.join(room)` (idempotent set insertion). -/
def addRoom (rooms : List Room) (r : Room) : List Room :=
  if rooms.contains r then rooms else r :: rooms

/-- `io.to(room).emit(ev)`: one delivery per connection currently joined. -/
def emitToRoom (conns : List Conn) (r : Room) (e : OutEvent) :
    List (Nat × OutEvent) :=
  (conns.filter fun c => c.rooms.contains r).map fun c => (c.cid, e)

/-- `socket.to(room).emit(ev)`: as `io.to` but excluding the sender. -/
def emitToRoomExceptSelf (conns : List Conn) (selfCid : Nat) (r : Room)
    (e : OutEvent) : List (Nat × OutEvent) :=
  (conns.filter fun c => c.rooms.contains r && c.cid != selfCid).map
    fun c => (c.cid, e)

/-- `join_project` handler: a successful access query joins the room and
acknowledges; a null result does nothing at all. -/
def handleJoinProject (db : Db) (self : Conn) (pid : Int) :
    Conn × List (Nat × OutEvent) :=
  if projectAccess db self.userId pid then
    ({ self with rooms := addRoom self.rooms (.projectRoom pid) },
     [(self.cid, .joinedProject pid)])
  else (self, [])

/-- `join_task` handler. -/
def handleJoinTask (db : Db) (self : Conn) (tid : Int) :
    Conn × List (Nat × OutEvent) :=
  if taskAccess db self.userId tid then
    ({ self with rooms := addRoom self.rooms (.taskRoom tid) },
     [(self.cid, .joinedTask tid)])
  else (self, [])

/-- `join_conversation` handler. -/
def handleJoinConversation (db : Db) (self : Conn) (convId : Int) :
    Conn × List (Nat × OutEvent) :=
  if isParticipant db convId self.userId then
    ({ self with rooms := addRoom self.rooms (.convRoom convId) },
     [(self.cid, .joinedConversation convId)])
  else (self, [])

structure SendData where
  conversationId : Int
  content : String
  msgType : String
deriving DecidableEq, Repr

/-- The notification text pushed for a received message. -/
def messageNotifText (db : Db) (senderId : Int) : String :=
  senderLabel db senderId ++ " sent you a message"

/-- `send_message` handler.  `createOk` is the outcome of the
`prisma.message.create` call (false models a thrown persistence error,
landing in the catch block); `newMsgId`/`now` are the id and timestamp the
database generates for the durable record. -/
def handleSendMessage (db : Db) (conns : List Conn) (self : Conn)
    (data : SendData) (createOk : Bool) (newMsgId now : Int) :
    Db × List (Nat × OutEvent) :=
  if ¬ isParticipant db data.conversationId self.userId then
    (db, [(self.cid, .errEvent "Not authorized to send message")])
  else if ¬ createOk then
    (db, [(self.cid, .errEvent "Failed to send message")])
  else
    let m : MessageRow :=
      { id := newMsgId, conversationId := data.conversationId,
        senderId := self.userId, content := data.content,
        messageType := data.msgType, createdAt := now }
    let broadcast := emitToRoom conns (.convRoom data.conversationId) (.newMessage m)
    let others := db.convParticipants.filter fun pr =>
      pr.1 == data.conversationId && pr.2 != self.userId
    let notifRows := others.map fun pr =>
      ({ userId := pr.2, ntype := "MESSAGE_RECEIVED", title := "New Message",
         content := messageNotifText db self.userId,
         dataConversationId := data.conversationId,
         dataMessageId := newMsgId } : NotificationRow)
    let notifEmits := others.flatMap fun pr =>
      emitToRoom conns (.userRoom pr.2)
        (.notificationEv pr.2 "MESSAGE_RECEIVED" "New Message"
          (messageNotifText db self.userId))
    ({ db with messages := db.messages ++ [m],
               notifications := db.notifications ++ notifRows },
     broadcast ++ notifEmits)

/-- `typing_start` handler: no check, broadcast to the conversation room
excluding the sender's socket. -/
def handleTypingStart (conns : List Conn) (self : Conn) (convId : Int) :
    List (Nat × OutEvent) :=
  emitToRoomExceptSelf conns self.cid (.convRoom convId)
    (.userTyping self.userId convId)

/-- `typing_stop` handler. -/
def handleTypingStop (conns : List Conn) (self : Conn) (convId : Int) :
    List (Nat × OutEvent) :=
  emitToRoomExceptSelf conns self.cid (.convRoom convId)
    (.userStoppedTyping self.userId convId)

/-! Join-only trace semantics for the membership invariant. -/

inductive JoinEvent where
  | joinProject (pid : Int)
  | joinTask (tid : Int)
  | joinConversation (cid : Int)
deriving DecidableEq, Repr

def stepJoin (db : Db) (self : Conn) (e : JoinEvent) : Conn :=
  match e with
  | .joinProject pid => (handleJoinProject db self pid).1
  | .joinTask tid => (handleJoinTask db self tid).1
  | .joinConversation convId => (handleJoinConversation db self convId).1

def runJoins (db : Db) (self : Conn) (es : List JoinEvent) : Conn :=
  es.foldl (stepJoin db) self

/-- What the source's join handlers authorize for each room kind (the
per-principal room is joined at handshake). -/
def authorizedRoom (db : Db) (uid : Int) : Room → Prop
  | .userRoom u => u = uid
  | .projectRoom pid => projectAccess db uid pid = true
  | .taskRoom tid => taskAccess db uid tid = true
  | .convRoom convId => isParticipant db convId uid = true

instance (db : Db) (uid : Int) (r : Room) : Decidable (authorizedRoom db uid r) := by
  cases r <;> simp [authorizedRoom] <;> infer_instance

/-! ### Shared lemmas about the registry -/

theorem storeLookup_erase_self (s : Store) (t : Jwt) :
    storeLookup (storeErase s t) t = none := by
  induction s with
  | nil => rfl
  | cons hd tl ih =>
    by_cases h : hd.1 = t
    · simpa [storeErase, List.filter_cons, h] using ih
    · simpa [storeErase, List.filter_cons, h, storeLookup] using ih

theorem refresh_ok_of (acfg asec rsec : String) (findUser : Int → Option UserRec)
    (store : Store) (t : Jwt) (p e now : Int) (u : UserRec)
    (hl : storeLookup store t = some ⟨p, e⟩) (hne : ¬ e < now)
    (hsec : t.secret = rsec) (hexp : ¬ t.exp < now) (huid : t.userId = p)
    (hu : findUser p = some u) :
    refreshTokenHandler acfg asec rsec findUser store (some t) now =
      (.ok (signAccessToken acfg asec p now), store) := by
  simp [refreshTokenHandler, hl, hne, verifyToken, hsec, hexp, huid, hu]

theorem refresh_after_revoke (acfg asec rsec : String)
    (findUser : Int → Option UserRec) (store : Store) (t : Jwt) (now : Int) :
    refreshTokenHandler acfg asec rsec findUser (storeErase store t) (some t) now =
      (.invalidOrExpired, storeErase store t) := by
  simp [refreshTokenHandler, storeLookup_erase_self]

theorem refresh_expired_deletes (acfg asec rsec : String)
    (findUser : Int → Option UserRec) (store : Store) (t : Jwt) (p e now : Int)
    (hl : storeLookup store t = some ⟨p, e⟩) (hlt : e < now) :
    refreshTokenHandler acfg asec rsec findUser store (some t) now =
      (.invalidOrExpired, storeErase store t) := by
  simp [refreshTokenHandler, hl, hlt]

/-! ### Lemmas about duration parsing -/

/-- Integer literal as the spec's wording means it: optional sign, then
digits. -/
def specIntLiteral (cs : List Char) : Bool :=
  match cs with
  | '-' :: ds => !ds.isEmpty && ds.all Char.isDigit
  | '+' :: ds => !ds.isEmpty && ds.all Char.isDigit
  | ds => !ds.isEmpty && ds.all Char.isDigit

/-- The spec's notion of a well-formed duration string: an integer
followed by s, m, h or d.  (Second definition for comparison against the
source's parser; translated from the spec's words, not from the code.) -/
def specIntUnitString (s : String) : Bool :=
  match s.toList.getLast? with
  | none => false
  | some u =>
    (u = 's' || u = 'm' || u = 'h' || u = 'd') && specIntLiteral s.toList.dropLast

/-- Milliseconds per duration unit in the source's switch. -/
def unitMultiplier (u : Char) : Int :=
  if u = 's' then 1000
  else if u = 'm' then 60000
  else if u = 'h' then 3600000
  else if u = 'd' then 86400000
  else 0

theorem not_whitespace_of_digit (c : Char) (h : c.isDigit = true) :
    c.isWhitespace = false := by
  cases hw : c.isWhitespace
  · rfl
  · exfalso
    simp [Char.isWhitespace] at hw
    rcases hw with ((rfl | rfl) | rfl) | rfl <;> exact absurd h (by decide)

theorem takeWhile_all_of (p : Char → Bool) (l : List Char)
    (h : ∀ a ∈ l, p a = true) : l.takeWhile p = l := by
  induction l with
  | nil => rfl
  | cons hd tl ih =>
    rw [List.takeWhile_cons, h hd (List.mem_cons_self hd tl),
      ih fun a ha => h a (List.mem_cons_of_mem hd ha), if_pos rfl]

theorem jsParseInt_digits (ds : List Char) (h : ds ≠ [])
    (hd : ∀ c ∈ ds, c.isDigit = true) :
    jsParseInt (String.mk ds) = some ((digitsVal ds : Int)) := by
  match ds, h with
  | c :: rest, _ =>
    have hc : c.isDigit = true := hd c (List.mem_cons_self c rest)
    have hcm : c ≠ '-' := by rintro rfl; exact absurd hc (by decide)
    have hcp : c ≠ '+' := by rintro rfl; exact absurd hc (by decide)
    have h1 : (String.mk (c :: rest)).toList = c :: rest := rfl
    rw [jsParseInt, h1, List.dropWhile_cons, not_whitespace_of_digit c hc]
    simp only [Bool.false_eq_true, if_false, hcm, hcp, if_neg, ite_false]
    rw [takeWhile_all_of Char.isDigit (c :: rest) hd]
    simp

theorem parseExpiry_digits_unit (ds : List Char) (u : Char) (h : ds ≠ [])
    (hd : ∀ c ∈ ds, c.isDigit = true) :
    parseExpiryToMilliseconds (String.mk (ds ++ [u])) =
      (digitsVal ds : Int) * unitMultiplier u := by
  have h1 : (String.mk (ds ++ [u])).toList = ds ++ [u] := rfl
  rw [parseExpiryToMilliseconds, h1, List.getLast?_concat, List.dropLast_concat,
    jsParseInt_digits ds h hd]
  by_cases hs : u = 's'
  · simp [unitMultiplier, hs]
  by_cases hm : u = 'm'
  · simp [unitMultiplier, hs, hm]; ring
  by_cases hh : u = 'h'
  · simp [unitMultiplier, hs, hm, hh]; ring
  by_cases hdu : u = 'd'
  · simp [unitMultiplier, hs, hm, hh, hdu]; ring
  · simp [unitMultiplier, hs, hm, hh, hdu]

/-! ### Claim theorems -/

/-- Claim C8: the background expiry sweep keeps an entry exactly when its
recorded `expiresAt` has not passed — it deletes every expired entry and
leaves every other entry untouched — and it is idempotent: sweeping the
already-swept registry changes nothing. -/
theorem cleanup_sweep_exact_and_idempotent :
    ∀ (store : Store) (now : Int),
      (∀ e : Jwt × RefreshTokenRecord,
        e ∈ cleanupSweep store now ↔ e ∈ store ∧ ¬(e.2.expiresAt < now)) ∧
      cleanupSweep (cleanupSweep store now) now = cleanupSweep store now := by
  intro store now
  constructor
  · intro e
    simp [cleanupSweep, List.mem_filter]
  · simp [cleanupSweep, List.filter_filter]

/-- Claim C8, witness: a concrete registry with one expired and one live
entry, swept twice at time 10, is unchanged by the second sweep. -/
theorem cleanup_sweep_witness :
    cleanupSweep
        (cleanupSweep [(⟨1, "rs", 5⟩, ⟨1, 5⟩), (⟨2, "rs", 50⟩, ⟨2, 50⟩)] 10)
        10 =
      cleanupSweep [(⟨1, "rs", 5⟩, ⟨1, 5⟩), (⟨2, "rs", 50⟩, ⟨2, 50⟩)] 10 :=
  (cleanup_sweep_exact_and_idempotent
    [(⟨1, "rs", 5⟩, ⟨1, 5⟩), (⟨2, "rs", 50⟩, ⟨2, 50⟩)] 10).2

/-- Claim C10: with an authenticated user attached, `requireAdminOrOwner`
grants access exactly when the user's role is `ADMIN` or the configured id
field — taken from the route params or from the body — parses to the
user's own id under radix-less JS `parseInt` (which reads `0x`-prefixed
fields as hexadecimal); with no field parsing to their id (absent fields
parse to NaN) only admins pass. -/
theorem require_admin_or_owner_exact :
    ∀ (u : UserRec) (paramsField bodyField : Option String),
      requireAdminOrOwner (some u) paramsField bodyField = .granted ↔
        (u.role = "ADMIN" ∨ jsParseIntNoRadixField paramsField = some u.id ∨
          jsParseIntNoRadixField bodyField = some u.id) := by
  intro u p b
  cases hp : jsParseIntNoRadixField p <;> cases hb : jsParseIntNoRadixField b <;>
    simp [requireAdminOrOwner, idMatches, hp, hb] <;>
    by_cases ha : u.role = "ADMIN" <;> simp [ha] <;> omega

/-- Claim C10, witness: a non-admin user with id 5 is granted access when
the body field parses to 5 even though the route param parses to 9; a
non-admin user with id 16 is granted access through the hexadecimal body
field "0x10"; and an admin is granted access with both fields absent. -/
theorem require_admin_or_owner_exact_witness :
    requireAdminOrOwner (some ⟨5, "MEMBER", true⟩) (some "9") (some "5") =
      .granted ∧
    requireAdminOrOwner (some ⟨16, "MEMBER", true⟩) none (some "0x10") =
      .granted ∧
    requireAdminOrOwner (some ⟨7, "ADMIN", true⟩) none none = .granted := by
  refine ⟨?_, ?_, ?_⟩
  · exact (require_admin_or_owner_exact ⟨5, "MEMBER", true⟩ (some "9")
      (some "5")).mpr (Or.inr (Or.inr (by decide)))
  · exact (require_admin_or_owner_exact ⟨16, "MEMBER", true⟩ none
      (some "0x10")).mpr (Or.inr (Or.inr (by decide)))
  · exact (require_admin_or_owner_exact ⟨7, "ADMIN", true⟩ none none).mpr
      (Or.inl rfl)

/-- Claim C9, counterexample: `"1x2m"` does not parse as an integer
followed by s/m/h/d, yet issuance does not fall back to the 15-minute /
7-day defaults: `parseInt("1x2")` reads the digit prefix `1`, so the
access expiry becomes 60 seconds (and the refresh duration 60000 ms) with
no warning — refuting "every malformed duration string falls back to the
hard-coded default". -/
theorem malformed_duration_no_fallback_cex :
    specIntUnitString "1x2m" = false ∧
      accessExpiry "1x2m" = (60, false) ∧
      refreshDuration "1x2m" = (60000, false) := by decide

/-- Claim C9 (amended): issuance computes the expiry via
`parseExpiryToMilliseconds` — which on a digit string followed by a unit
letter is the integer times the unit, but on any string reads only the
JS-`parseInt` digit prefix — and the 15-minute / 7-day fallback with a
warning triggers exactly when that parse yields 0 ms and the lowercased
string is not one of `0s/0m/0h/0d`; malformed strings whose digit prefix
parses (e.g. `"1x2m"`) silently produce the prefix-based expiry instead
of the fallback. -/
theorem duration_parse_and_fallback_exact :
    (∀ cfg : String, expiryFallback cfg = true →
      accessExpiry cfg = (15 * 60, true) ∧
        refreshDuration cfg = (7 * 24 * 60 * 60 * 1000, true)) ∧
    (∀ cfg : String, expiryFallback cfg = false →
      accessExpiry cfg = (parseExpiryToMilliseconds cfg / 1000, false) ∧
        refreshDuration cfg = (parseExpiryToMilliseconds cfg, false)) ∧
    (∀ cfg : String, expiryFallback cfg = true ↔
      (parseExpiryToMilliseconds cfg = 0 ∧
        ¬ jsToLowerCase cfg ∈ (["0s", "0m", "0h", "0d"] : List String))) ∧
    (∀ (ds : List Char) (u : Char), ds ≠ [] → (∀ c ∈ ds, c.isDigit = true) →
      parseExpiryToMilliseconds (String.mk (ds ++ [u])) =
        (digitsVal ds : Int) * unitMultiplier u) := by
  refine ⟨?_, ?_, ?_, ?_⟩
  · intro cfg h
    simp [accessExpiry, refreshDuration, h]
  · intro cfg h
    simp [accessExpiry, refreshDuration, h]
  · intro cfg
    simp [expiryFallback]
  · exact parseExpiry_digits_unit

/-- Claim C9, witness: `"15m"` yields 900000 ms (15 minutes) computed
from the string, and the malformed `"bogus"` hits the warned 15-minute /
7-day fallback. -/
theorem duration_parse_and_fallback_witness :
    parseExpiryToMilliseconds (String.mk (['1', '5'] ++ ['m'])) =
      (15 : Int) * 60000 ∧
    accessExpiry "bogus" = (15 * 60, true) ∧
    refreshDuration "bogus" = (7 * 24 * 60 * 60 * 1000, true) := by
  refine ⟨?_, ?_⟩
  · have h := duration_parse_and_fallback_exact.2.2.2 ['1', '5'] 'm'
      (by decide) (by decide)
    simpa using h
  · exact duration_parse_and_fallback_exact.1 "bogus" (by decide)

/-- Claim C2: for a refresh token issued for principal `p`, `refresh`
succeeds with a new access token verifying to `p` while the registry
entry is unexpired and unrevoked; after revoke (logout) or after the
recorded expiry has passed it fails with the invalid-refresh-token error,
and the failed lookup of the expired entry deletes it from the
registry. -/
theorem refresh_token_lifecycle :
    ∀ (acfg rcfg asec rsec : String) (p t0 now now2 : Int) (store0 : Store)
      (findUser : Int → Option UserRec) (u : UserRec),
      findUser p = some u →
      0 ≤ (accessExpiry acfg).1 →
      (¬ t0 + (refreshDuration rcfg).1 < now →
        refreshTokenHandler acfg asec rsec findUser
            (signRefreshToken rcfg rsec p t0 store0).2
            (some (signRefreshToken rcfg rsec p t0 store0).1) now =
          (.ok (signAccessToken acfg asec p now),
            (signRefreshToken rcfg rsec p t0 store0).2) ∧
        verifyToken (signAccessToken acfg asec p now) asec now = some p) ∧
      ((refreshTokenHandler acfg asec rsec findUser
          (logoutHandler (signRefreshToken rcfg rsec p t0 store0).2
            (some (signRefreshToken rcfg rsec p t0 store0).1))
          (some (signRefreshToken rcfg rsec p t0 store0).1) now2).1 =
        .invalidOrExpired) ∧
      (t0 + (refreshDuration rcfg).1 < now2 →
        (refreshTokenHandler acfg asec rsec findUser
            (signRefreshToken rcfg rsec p t0 store0).2
            (some (signRefreshToken rcfg rsec p t0 store0).1) now2).1 =
          .invalidOrExpired ∧
        storeLookup
          (refreshTokenHandler acfg asec rsec findUser
              (signRefreshToken rcfg rsec p t0 store0).2
              (some (signRefreshToken rcfg rsec p t0 store0).1) now2).2
          (signRefreshToken rcfg rsec p t0 store0).1 = none) := by
  intro acfg rcfg asec rsec p t0 now now2 store0 findUser u hu hpos
  have hlook : storeLookup (signRefreshToken rcfg rsec p t0 store0).2
      (signRefreshToken rcfg rsec p t0 store0).1 =
      some ⟨p, t0 + (refreshDuration rcfg).1⟩ := by
    simp [signRefreshToken, storeLookup]
  refine ⟨?_, ?_, ?_⟩
  · intro hne
    refine ⟨refresh_ok_of acfg asec rsec findUser _ _ p _ now u hlook hne
      rfl hne rfl hu, ?_⟩
    have hv : ¬ (now + (accessExpiry acfg).1 * 1000 < now) := by omega
    simp [verifyToken, signAccessToken, hv]
  · have hlog : logoutHandler (signRefreshToken rcfg rsec p t0 store0).2
        (some (signRefreshToken rcfg rsec p t0 store0).1) =
        storeErase (signRefreshToken rcfg rsec p t0 store0).2
          (signRefreshToken rcfg rsec p t0 store0).1 := by
      simp [logoutHandler, hlook]
    rw [hlog, refresh_after_revoke]
  · intro hlt
    have h := refresh_expired_deletes acfg asec rsec findUser _ _ p _ now2
      hlook hlt
    exact ⟨by rw [h], by rw [h]; exact storeLookup_erase_self _ _⟩

/-- A concrete user-lookup collaborator: only principal 1 exists. -/
def findUserOne : Int → Option UserRec :=
  fun i => if i = 1 then some ⟨1, "MEMBER", true⟩ else none

/-- Claim C2, witness: token issued at time 0 with a 7-day duration
refreshes successfully at time 1000 and fails at time 700000000000
(past the expiry). -/
theorem refresh_token_lifecycle_witness :
    refreshTokenHandler "15m" "as" "rs" findUserOne
        (signRefreshToken "7d" "rs" 1 0 []).2
        (some (signRefreshToken "7d" "rs" 1 0 []).1) 1000 =
      (.ok (signAccessToken "15m" "as" 1 1000),
        (signRefreshToken "7d" "rs" 1 0 []).2) ∧
    (refreshTokenHandler "15m" "as" "rs" findUserOne
        (signRefreshToken "7d" "rs" 1 0 []).2
        (some (signRefreshToken "7d" "rs" 1 0 []).1) 700000000000).1 =
      .invalidOrExpired := by
  have h := refresh_token_lifecycle "15m" "7d" "as" "rs" 1 0 1000 700000000000
    [] findUserOne ⟨1, "MEMBER", true⟩ (by decide) (by decide)
  exact ⟨(h.1 (by decide)).1, (h.2.2 (by decide)).1⟩

/-- Claim C6: a successful refresh issues a new access token only and is
frame-preserving on the registry — the entry for `t` (principal and
recorded expiry) is neither deleted nor replaced — so the same token
refreshes again successfully until it expires or is revoked. -/
theorem refresh_no_rotation :
    ∀ (acfg asec rsec : String) (findUser : Int → Option UserRec)
      (store : Store) (t : Jwt) (p e now now2 : Int) (u : UserRec),
      storeLookup store t = some ⟨p, e⟩ → t.secret = rsec → t.userId = p →
      t.exp = e → findUser p = some u → ¬ e < now →
      (refreshTokenHandler acfg asec rsec findUser store (some t) now).2 =
        store ∧
      storeLookup
        (refreshTokenHandler acfg asec rsec findUser store (some t) now).2 t =
        some ⟨p, e⟩ ∧
      (¬ e < now2 →
        refreshTokenHandler acfg asec rsec findUser
            (refreshTokenHandler acfg asec rsec findUser store (some t) now).2
            (some t) now2 =
          (.ok (signAccessToken acfg asec p now2),
            (refreshTokenHandler acfg asec rsec findUser store
              (some t) now).2)) := by
  intro acfg asec rsec findUser store t p e now now2 u hl hsec huid hexp hu hne
  have hexp1 : ¬ t.exp < now := by rw [hexp]; exact hne
  have h1 := refresh_ok_of acfg asec rsec findUser store t p e now u hl hne
    hsec hexp1 huid hu
  refine ⟨by rw [h1], by rw [h1]; exact hl, ?_⟩
  intro hne2
  have hexp2 : ¬ t.exp < now2 := by rw [hexp]; exact hne2
  rw [h1]
  exact refresh_ok_of acfg asec rsec findUser store t p e now2 u hl hne2
    hsec hexp2 huid hu

/-- Claim C6, witness: two consecutive refreshes of the same issued token
both succeed and the registry still holds the original entry. -/
theorem refresh_no_rotation_witness :
    (refreshTokenHandler "15m" "as" "rs" findUserOne
        (signRefreshToken "7d" "rs" 1 0 []).2
        (some (signRefreshToken "7d" "rs" 1 0 []).1) 1000).2 =
      (signRefreshToken "7d" "rs" 1 0 []).2 ∧
    refreshTokenHandler "15m" "as" "rs" findUserOne
        ((refreshTokenHandler "15m" "as" "rs" findUserOne
          (signRefreshToken "7d" "rs" 1 0 []).2
          (some (signRefreshToken "7d" "rs" 1 0 []).1) 1000).2)
        (some (signRefreshToken "7d" "rs" 1 0 []).1) 2000 =
      (.ok (signAccessToken "15m" "as" 1 2000),
        (refreshTokenHandler "15m" "as" "rs" findUserOne
          (signRefreshToken "7d" "rs" 1 0 []).2
          (some (signRefreshToken "7d" "rs" 1 0 []).1) 1000).2) := by
  have h := refresh_no_rotation "15m" "as" "rs" findUserOne
    (signRefreshToken "7d" "rs" 1 0 []).2
    (signRefreshToken "7d" "rs" 1 0 []).1 1 604800000 1000 2000
    ⟨1, "MEMBER", true⟩ (by decide) (by decide) (by decide) (by decide)
    (by decide) (by decide)
  exact ⟨h.1, h.2.2 (by decide)⟩

/-! ### Lemmas about room joining -/

theorem mem_addRoom (l : List Room) (r a : Room) (h : a ∈ addRoom l r) :
    a = r ∨ a ∈ l := by
  unfold addRoom at h
  split at h
  · exact Or.inr h
  · rcases List.mem_cons.mp h with h | h
    · exact Or.inl h
    · exact Or.inr h

theorem stepJoin_userId (db : Db) (self : Conn) (e : JoinEvent) :
    (stepJoin db self e).userId = self.userId := by
  cases e with
  | joinProject pid =>
    by_cases h : projectAccess db self.userId pid = true <;>
      simp [stepJoin, handleJoinProject, h]
  | joinTask tid =>
    by_cases h : taskAccess db self.userId tid = true <;>
      simp [stepJoin, handleJoinTask, h]
  | joinConversation convId =>
    by_cases h : isParticipant db convId self.userId = true <;>
      simp [stepJoin, handleJoinConversation, h]

theorem stepJoin_rooms (db : Db) (self : Conn) (e : JoinEvent) (r : Room)
    (h : r ∈ (stepJoin db self e).rooms) :
    r ∈ self.rooms ∨ authorizedRoom db self.userId r := by
  cases e with
  | joinProject pid =>
    by_cases ha : projectAccess db self.userId pid = true
    · simp [stepJoin, handleJoinProject, ha] at h
      rcases mem_addRoom _ _ _ h with rfl | h
      · exact Or.inr ha
      · exact Or.inl h
    · simp [stepJoin, handleJoinProject, ha] at h
      exact Or.inl h
  | joinTask tid =>
    by_cases ha : taskAccess db self.userId tid = true
    · simp [stepJoin, handleJoinTask, ha] at h
      rcases mem_addRoom _ _ _ h with rfl | h
      · exact Or.inr ha
      · exact Or.inl h
    · simp [stepJoin, handleJoinTask, ha] at h
      exact Or.inl h
  | joinConversation convId =>
    by_cases ha : isParticipant db convId self.userId = true
    · simp [stepJoin, handleJoinConversation, ha] at h
      rcases mem_addRoom _ _ _ h with rfl | h
      · exact Or.inr ha
      · exact Or.inl h
    · simp [stepJoin, handleJoinConversation, ha] at h
      exact Or.inl h

theorem runJoins_inv (db : Db) (es : List JoinEvent) :
    ∀ self : Conn, (∀ r ∈ self.rooms, authorizedRoom db self.userId r) →
      ∀ r ∈ (runJoins db self es).rooms, authorizedRoom db self.userId r := by
  induction es with
  | nil => intro self h r hr; exact h r hr
  | cons e tl ih =>
    intro self h r hr
    have hstep : ∀ r' ∈ (stepJoin db self e).rooms,
        authorizedRoom db (stepJoin db self e).userId r' := by
      rw [stepJoin_userId]
      intro r' hr'
      rcases stepJoin_rooms db self e r' hr' with h' | h'
      · exact h r' h'
      · exact h'
    have hr' : r ∈ (runJoins db (stepJoin db self e) tl).rooms := by
      simpa [runJoins, List.foldl_cons] using hr
    have := ih (stepJoin db self e) hstep r hr'
    rwa [stepJoin_userId] at this

/-- Claim C3: starting from a fresh connection (which holds only its
per-principal room), any sequence of join requests leaves the connection's
membership a subset of the rooms its principal is authorized for; in
particular a principal lacking participant / owner-or-public /
assignee-creator-watcher status for a conversation / project / task room
can never end up joined to it, and membership is never inferred
transitively. -/
theorem join_room_requires_authorization :
    ∀ (db : Db) (cid : Nat) (uid : Int) (es : List JoinEvent) (r : Room),
      r ∈ (runJoins db (initConn cid uid) es).rooms →
      authorizedRoom db uid r := by
  intro db cid uid es r hr
  have hinit : ∀ r' ∈ (initConn cid uid).rooms,
      authorizedRoom db (initConn cid uid).userId r' := by
    intro r' hr'
    simp [initConn] at hr'
    subst hr'
    rfl
  exact runJoins_inv db es (initConn cid uid) hinit r hr

/-- Claim C3, witness: the owner of project 1 ends up authorized for the
project room it joined. -/
theorem join_room_requires_authorization_witness :
    authorizedRoom ⟨[⟨1, 5, false⟩], [], [], [], [], []⟩ 5
      (Room.projectRoom 1) :=
  join_room_requires_authorization ⟨[⟨1, 5, false⟩], [], [], [], [], []⟩ 0 5
    [JoinEvent.joinProject 1] (Room.projectRoom 1) (by decide)

/-- Claim C4, counterexample: principal 3 asks to join project room 7
(owned by principal 1, not public).  The handler emits nothing at all —
in particular no `RoomAccessDenied`-style error event — refuting the
claim that the denied join yields an error event back to the requester;
the connection and its membership are left unchanged. -/
theorem join_project_denied_silent_cex :
    handleJoinProject ⟨[⟨7, 1, false⟩], [], [], [], [], []⟩ (initConn 3 3) 7 =
      (initConn 3 3, []) ∧
    projectAccess ⟨[⟨7, 1, false⟩], [], [], [], [], []⟩ 3 7 = false := by
  decide

/-- Claim C4 (amended): an unauthorized `join_project` request is silently
ignored: no event of any kind is emitted back (not a `RoomAccessDenied`
error event), no room membership is recorded, and the connection survives
unchanged. -/
theorem join_project_denied_no_effect :
    ∀ (db : Db) (self : Conn) (pid : Int),
      projectAccess db self.userId pid = false →
      handleJoinProject db self pid = (self, []) := by
  intro db self pid h
  simp [handleJoinProject, h]

/-- Claim C4, witness: the Scenario-B instance of the amended claim. -/
theorem join_project_denied_no_effect_witness :
    handleJoinProject ⟨[⟨7, 1, false⟩], [], [], [], [], []⟩
        ⟨4, 3, [Room.userRoom 3]⟩ 7 =
      (⟨4, 3, [Room.userRoom 3]⟩, []) :=
  join_project_denied_no_effect ⟨[⟨7, 1, false⟩], [], [], [], [], []⟩
    ⟨4, 3, [Room.userRoom 3]⟩ 7 (by decide)

/-- Claim C5, counterexample: principal 9's connection has not joined
conversation room 1 and principal 9 is not a participant of conversation
1, yet its `typing_start` event is processed and broadcast to the room's
members — refuting the claim that typing events require the sender's
current membership in the target room. -/
theorem typing_requires_membership_cex :
    (([Room.userRoom 9] : List Room).contains (Room.convRoom 1)) = false ∧
    isParticipant ⟨[], [], [], [(1, 1), (1, 2)], [], []⟩ 1 9 = false ∧
    handleTypingStart
        [⟨0, 1, [Room.userRoom 1, Room.convRoom 1]⟩,
         ⟨1, 2, [Room.userRoom 2, Room.convRoom 1]⟩]
        ⟨2, 9, [Room.userRoom 9]⟩ 1 =
      [(0, OutEvent.userTyping 9 1), (1, OutEvent.userTyping 9 1)] := by
  decide

/-- Claim C5 (amended): `send_message` re-checks authorization per event
by querying the persistence layer for the sender's conversation-participant
record — not the presence registry's recorded room membership — and
refuses (with an error event to the sender only) exactly when that record
is absent, whatever rooms the sender has joined; `typing_start` /
`typing_stop` perform no membership check at all and broadcast to the
target room's other members unconditionally. -/
theorem message_persistence_check_typing_unchecked :
    (∀ (db : Db) (conns : List Conn) (self : Conn) (data : SendData)
       (createOk : Bool) (newMsgId now : Int),
      isParticipant db data.conversationId self.userId = false →
      handleSendMessage db conns self data createOk newMsgId now =
        (db, [(self.cid, .errEvent "Not authorized to send message")])) ∧
    (∀ (conns : List Conn) (self : Conn) (convId : Int) (c : Conn),
      c ∈ conns → c.rooms.contains (Room.convRoom convId) = true →
      (c.cid == self.cid) = false →
      (c.cid, OutEvent.userTyping self.userId convId) ∈
        handleTypingStart conns self convId ∧
      (c.cid, OutEvent.userStoppedTyping self.userId convId) ∈
        handleTypingStop conns self convId) := by
  constructor
  · intro db conns self data createOk newMsgId now h
    simp [handleSendMessage, h]
  · intro conns self convId c hc hroom hcid
    constructor
    · exact List.mem_map.mpr ⟨c, List.mem_filter.mpr ⟨hc, by
        simp [bne, hcid]
        simpa using hroom⟩, rfl⟩
    · exact List.mem_map.mpr ⟨c, List.mem_filter.mpr ⟨hc, by
        simp [bne, hcid]
        simpa using hroom⟩, rfl⟩

/-- Claim C5, witness: a non-participant sender is refused on
`send_message`, and a joined connection receives the unchecked
`typing_start` broadcast. -/
theorem message_persistence_check_typing_unchecked_witness :
    handleSendMessage ⟨[], [], [], [(1, 1), (1, 2)], [], []⟩
        [⟨1, 2, [Room.userRoom 2, Room.convRoom 1]⟩]
        ⟨2, 9, [Room.userRoom 9, Room.convRoom 1]⟩ ⟨1, "hi", "TEXT"⟩
        true 42 1000 =
      (⟨[], [], [], [(1, 1), (1, 2)], [], []⟩,
        [(2, .errEvent "Not authorized to send message")]) ∧
    (1, OutEvent.userTyping 9 1) ∈
      handleTypingStart [⟨1, 2, [Room.userRoom 2, Room.convRoom 1]⟩]
        ⟨2, 9, [Room.userRoom 9]⟩ 1 := by
  constructor
  · exact message_persistence_check_typing_unchecked.1
      ⟨[], [], [], [(1, 1), (1, 2)], [], []⟩
      [⟨1, 2, [Room.userRoom 2, Room.convRoom 1]⟩]
      ⟨2, 9, [Room.userRoom 9, Room.convRoom 1]⟩ ⟨1, "hi", "TEXT"⟩
      true 42 1000 (by decide)
  · exact (message_persistence_check_typing_unchecked.2
      [⟨1, 2, [Room.userRoom 2, Room.convRoom 1]⟩] ⟨2, 9, [Room.userRoom 9]⟩
      1 ⟨1, 2, [Room.userRoom 2, Room.convRoom 1]⟩ (by decide) (by decide)
      (by decide)).1

/-- Claim C7: if the persistence write fails during `send_message`, that
send is aborted — the database is unchanged and the only emitted event is
the retryable failure signal back to the originating sender, never a
broadcast — and in general a `new_message` event is only ever emitted for
a message that exists as a durable record afterwards. -/
theorem send_message_failure_atomic :
    ∀ (db : Db) (conns : List Conn) (self : Conn) (data : SendData)
      (newMsgId now : Int),
      isParticipant db data.conversationId self.userId = true →
      (handleSendMessage db conns self data false newMsgId now =
        (db, [(self.cid, .errEvent "Failed to send message")])) ∧
      (∀ (createOk : Bool) (x : Nat) (m : MessageRow),
        (x, OutEvent.newMessage m) ∈
          (handleSendMessage db conns self data createOk newMsgId now).2 →
        m ∈ (handleSendMessage db conns self data createOk newMsgId
          now).1.messages) := by
  intro db conns self data newMsgId now h
  constructor
  · simp [handleSendMessage, h]
  · intro createOk x m hm
    cases createOk with
    | false => simp [handleSendMessage, h] at hm
    | true =>
      simp only [handleSendMessage, h, not_true_eq_false, if_false,
        Bool.true_eq_false, ite_false, if_neg, not_false_eq_true,
        if_true] at hm ⊢
      rcases List.mem_append.mp hm with hb | hn
      · rcases List.mem_map.mp hb with ⟨c, _, hpair⟩
        have : OutEvent.newMessage
            { id := newMsgId, conversationId := data.conversationId,
              senderId := self.userId, content := data.content,
              messageType := data.msgType, createdAt := now } =
            OutEvent.newMessage m := congrArg Prod.snd hpair
        have hm' := (OutEvent.newMessage.injEq _ _).mp this
        rw [← hm']
        exact List.mem_append.mpr (Or.inr (List.mem_singleton.mpr rfl))
      · exfalso
        rcases List.mem_flatMap.mp hn with ⟨pr, _, hin⟩
        rcases List.mem_map.mp hin with ⟨c, _, hpair⟩
        exact OutEvent.noConfusion (congrArg Prod.snd hpair)

/-- Claim C7, witness: in Scenario A's room, a failed persistence write
leaves the database untouched and signals only the sender. -/
theorem send_message_failure_atomic_witness :
    handleSendMessage ⟨[], [], [], [(1, 1), (1, 2)], [], []⟩
        [⟨0, 1, [Room.userRoom 1, Room.convRoom 1]⟩,
         ⟨1, 2, [Room.userRoom 2, Room.convRoom 1]⟩]
        ⟨0, 1, [Room.userRoom 1, Room.convRoom 1]⟩ ⟨1, "hi", "TEXT"⟩
        false 42 1000 =
      (⟨[], [], [], [(1, 1), (1, 2)], [], []⟩,
        [(0, .errEvent "Failed to send message")]) :=
  (send_message_failure_atomic ⟨[], [], [], [(1, 1), (1, 2)], [], []⟩
    [⟨0, 1, [Room.userRoom 1, Room.convRoom 1]⟩,
     ⟨1, 2, [Room.userRoom 2, Room.convRoom 1]⟩]
    ⟨0, 1, [Room.userRoom 1, Room.convRoom 1]⟩ ⟨1, "hi", "TEXT"⟩
    42 1000 (by decide)).1

/-! ### Counting lemmas for broadcasts -/

theorem count_pair_map (l : List Conn) (x : Nat) (e : OutEvent) :
    (l.map fun c => (c.cid, e)).count (x, e) = (l.map Conn.cid).count x := by
  induction l with
  | nil => rfl
  | cons hd tl ih =>
    simp only [List.map_cons, List.count_cons, ih]
    congr 1
    simp [Prod.ext_iff]

theorem count_emitToRoom (conns : List Conn) (r : Room) (e : OutEvent)
    (hnd : (conns.map Conn.cid).Nodup) (c : Conn) (hc : c ∈ conns) :
    (emitToRoom conns r e).count (c.cid, e) =
      if c.rooms.contains r then 1 else 0 := by
  unfold emitToRoom
  rw [count_pair_map]
  by_cases hr : c.rooms.contains r = true
  · rw [if_pos hr]
    apply List.count_eq_one_of_mem
    · exact ((List.filter_sublist conns).map Conn.cid).nodup hnd
    · exact List.mem_map.mpr ⟨c, List.mem_filter.mpr ⟨hc, hr⟩, rfl⟩
  · rw [if_neg hr]
    apply List.count_eq_zero.mpr
    intro hmem
    rcases List.mem_map.mp hmem with ⟨c', hc', hcid⟩
    have hc'in : c' ∈ conns := (List.mem_filter.mp hc').1
    have hceq : c' = c := List.inj_on_of_nodup_map hnd hc'in hc hcid
    rw [hceq] at hc'
    exact hr (List.mem_filter.mp hc').2

theorem count_newMessage_in_notifs_zero (others : List (Int × Int))
    (conns : List Conn) (x : Nat) (m : MessageRow) (nt nti ntm : String) :
    (others.flatMap fun pr => emitToRoom conns (.userRoom pr.2)
        (.notificationEv pr.2 nt nti ntm)).count
      (x, OutEvent.newMessage m) = 0 := by
  apply List.count_eq_zero.mpr
  intro hmem
  rcases List.mem_flatMap.mp hmem with ⟨pr, _, hin⟩
  rcases List.mem_map.mp hin with ⟨c, _, hpair⟩
  exact OutEvent.noConfusion (congrArg Prod.snd hpair)

/-- Claim C1: on `send_message`, the router first verifies the sender is a
registered participant of the conversation (refusing with an error event
to the sender only otherwise); on success it persists the message with
its durable id and timestamp, broadcasts the persisted payload exactly
once to every connection currently joined to the conversation room (and
to no other connection), and, for every other participant of the
conversation, persists a MESSAGE_RECEIVED notification record and pushes
the notification to every connection joined to that participant's
per-user room. -/
theorem send_message_flow :
    ∀ (db : Db) (conns : List Conn) (self : Conn) (data : SendData)
      (newMsgId now : Int),
      (conns.map Conn.cid).Nodup →
      (isParticipant db data.conversationId self.userId = false →
        handleSendMessage db conns self data true newMsgId now =
          (db, [(self.cid, .errEvent "Not authorized to send message")])) ∧
      (isParticipant db data.conversationId self.userId = true →
        (handleSendMessage db conns self data true newMsgId now).1.messages =
          db.messages ++
            [{ id := newMsgId, conversationId := data.conversationId,
               senderId := self.userId, content := data.content,
               messageType := data.msgType, createdAt := now }] ∧
        (∀ c ∈ conns,
          (handleSendMessage db conns self data true newMsgId now).2.count
              (c.cid, OutEvent.newMessage
                { id := newMsgId, conversationId := data.conversationId,
                  senderId := self.userId, content := data.content,
                  messageType := data.msgType, createdAt := now }) =
            if c.rooms.contains (Room.convRoom data.conversationId) then 1
            else 0) ∧
        (∀ q : Int, (data.conversationId, q) ∈ db.convParticipants →
          q ≠ self.userId →
          ({ userId := q, ntype := "MESSAGE_RECEIVED", title := "New Message",
             content := messageNotifText db self.userId,
             dataConversationId := data.conversationId,
             dataMessageId := newMsgId } : NotificationRow) ∈
            (handleSendMessage db conns self data true newMsgId
              now).1.notifications ∧
          ∀ c ∈ conns, c.rooms.contains (Room.userRoom q) = true →
            (c.cid, OutEvent.notificationEv q "MESSAGE_RECEIVED" "New Message"
                (messageNotifText db self.userId)) ∈
              (handleSendMessage db conns self data true newMsgId now).2)) := by
  intro db conns self data newMsgId now hnd
  constructor
  · intro h
    simp [handleSendMessage, h]
  · intro h
    refine ⟨?_, ?_, ?_⟩
    · simp [handleSendMessage, h]
    · intro c hc
      simp only [handleSendMessage, h, not_true_eq_false, if_false,
        Bool.true_eq_false, ite_false, if_neg, not_false_eq_true, if_true]
      rw [List.count_append, count_emitToRoom conns _ _ hnd c hc,
        count_newMessage_in_notifs_zero]
      omega
    · intro q hq hqne
      have hothers : (data.conversationId, q) ∈
          db.convParticipants.filter (fun pr =>
            pr.1 == data.conversationId && pr.2 != self.userId) := by
        refine List.mem_filter.mpr ⟨hq, ?_⟩
        simp [bne, hqne]
      constructor
      · simp only [handleSendMessage, h, not_true_eq_false, if_false,
          Bool.true_eq_false, ite_false, if_neg, not_false_eq_true, if_true]
        refine List.mem_append.mpr (Or.inr ?_)
        exact List.mem_map.mpr ⟨(data.conversationId, q), hothers, rfl⟩
      · intro c hc hroom
        simp only [handleSendMessage, h, not_true_eq_false, if_false,
          Bool.true_eq_false, ite_false, if_neg, not_false_eq_true, if_true]
        refine List.mem_append.mpr (Or.inr ?_)
        refine List.mem_flatMap.mpr ⟨(data.conversationId, q), hothers, ?_⟩
        exact List.mem_map.mpr ⟨c, List.mem_filter.mpr ⟨hc, hroom⟩, rfl⟩

/-- Scenario A's database: conversation 1 with participants 1 and 2. -/
def dbScenA : Db :=
  ⟨[], [], [⟨1, "alice", some "Alice"⟩, ⟨2, "bob", none⟩],
    [(1, 1), (1, 2)], [], []⟩

/-- Scenario A's live connections: both participants joined `conversation:1`. -/
def connsScenA : List Conn :=
  [⟨0, 1, [Room.userRoom 1, Room.convRoom 1]⟩,
   ⟨1, 2, [Room.userRoom 2, Room.convRoom 1]⟩]

/-- Claim C1, witness: Scenario A — principal 1 sends "hi" to conversation
1; principal 2's connection receives exactly one `new_message` with
content "hi", and a persisted MESSAGE_RECEIVED notification for principal
2 exists. -/
theorem send_message_flow_witness :
    (handleSendMessage dbScenA connsScenA
        ⟨0, 1, [Room.userRoom 1, Room.convRoom 1]⟩ ⟨1, "hi", "TEXT"⟩
        true 42 1000).2.count
        (1, OutEvent.newMessage ⟨42, 1, 1, "hi", "TEXT", 1000⟩) = 1 ∧
    (⟨2, "MESSAGE_RECEIVED", "New Message", "Alice sent you a message", 1,
        42⟩ : NotificationRow) ∈
      (handleSendMessage dbScenA connsScenA
        ⟨0, 1, [Room.userRoom 1, Room.convRoom 1]⟩ ⟨1, "hi", "TEXT"⟩
        true 42 1000).1.notifications := by
  have h := send_message_flow dbScenA connsScenA
    ⟨0, 1, [Room.userRoom 1, Room.convRoom 1]⟩ ⟨1, "hi", "TEXT"⟩ 42 1000
    (by decide)
  have h2 := h.2 (by decide)
  constructor
  · have hcount := h2.2.1 ⟨1, 2, [Room.userRoom 2, Room.convRoom 1]⟩
      (by decide)
    simpa using hcount
  · have hnotif := (h2.2.2 2 (by decide) (by decide)).1
    simpa using hnotif

end TaskManager
